import Mathlib

/-!
Verification development for the pc28-bot repository (Go).

The definitions below are a shallow embedding of the program's data model and
operations, translated function by function from the Go source:

* `internal/database` (models, MySQL operations) — `calculateOddEven`,
  `parseOpenNum`, `calculateSum`, `formatOpenNum`, the `LotteryResult` /
  `Prediction` records and the store operations (`saveLotteryResult`,
  `checkNewQihao`, `mysqlValidatePrediction`, `getPredictionStats`, ...).
  SQL queries are modelled as pure functions over a list of rows; machine
  integers are modelled as `Int`/`Nat` (the values involved are tiny, far
  from any overflow boundary); `NOW()` timestamps are passed explicitly.
* `internal/api` (client.go) — `convertAPIDataToLotteryResult`,
  `fetchAndValidateLatestData`, `getHistoricalData`.  The HTTP transport and
  retry loop are not modelled: the fetched batch is a parameter.  Time-string
  parsing (`parseOpenTime`, Go layout parsing) is abstracted as an explicit
  function parameter `pt : String → Option Nat`; nothing proved below depends
  on its behaviour.
* `internal/predictor` (algorithm.go, validator.go) — `generateNextQihao`,
  `fixedOddEvenPrediction`, `predict`, `performDetailedValidation`,
  `validatorValidatePrediction`.
* `internal/cache` (memory.go) — `MemoryCache` with `setOp`, `getOp`,
  `evictOldest`, `findOldest`.  `sync.Map` is modelled as an association
  list whose order is the `Range` iteration order; `time.Now()` is an
  explicit `Nat` argument; the JSON marshal/unmarshal copy made by `Get` is
  modelled as returning the stored value.
* `main.go` — the orchestrator cycle `processDataUpdate`, which also emits an
  event trace recording the order of its side effects.

Go's `strconv.Atoi` is modelled by `atoi` (whole-string, optional sign),
`fmt.Sscanf "%d"` by `sscanfD` (leading spaces, optional sign, longest digit
run, trailing input ignored) and `fmt.Sprintf "%03d"` by `sprintf03d`.
-/

/-! ## Digit and number parsing helpers (strconv / fmt models) -/

/-- Numeric value of a decimal digit character, `c - '0'` as in Go. -/
def charDigitVal (c : Char) : Nat := c.toNat - 48

/-- Value of a digit string, most significant digit first (Go parse loops). -/
def digitsToNat (l : List Char) : Nat :=
  l.foldl (fun acc c => 10 * acc + charDigitVal c) 0

/-- Model of Go `strconv.Atoi` applied to a digit run: the whole list must be
nonempty and all digits. -/
def allDigitsVal (l : List Char) : Option Nat :=
  if l.isEmpty then none
  else if l.all Char.isDigit then some (digitsToNat l) else none

/-- Model of Go `strconv.Atoi`: optional sign followed by digits, the whole
string must be consumed. -/
def atoi (s : String) : Option Int :=
  match s.data with
  | [] => none
  | c :: rest =>
    if c = '-' then (allDigitsVal rest).map (fun n => -(n : Int))
    else if c = '+' then (allDigitsVal rest).map (fun n => (n : Int))
    else (allDigitsVal (c :: rest)).map (fun n => (n : Int))

/-- Model of Go `strings.TrimSpace`. -/
def trimSpace (s : String) : String :=
  String.mk (((s.data.dropWhile Char.isWhitespace).reverse.dropWhile
    Char.isWhitespace).reverse)

/-- Longest leading digit run, used by the `fmt.Sscanf "%d"` model. -/
def leadingDigitsVal (l : List Char) : Option Nat :=
  let ds := l.takeWhile Char.isDigit
  if ds.isEmpty then none else some (digitsToNat ds)

/-- Model of Go `fmt.Sscanf(s, "%d", &n)`: skip leading spaces, optional
sign, at least one digit; trailing input is ignored. -/
def sscanfD (s : String) : Option Int :=
  match s.data.dropWhile Char.isWhitespace with
  | [] => none
  | c :: rest =>
    if c = '-' then (leadingDigitsVal rest).map (fun n => -(n : Int))
    else if c = '+' then (leadingDigitsVal rest).map (fun n => (n : Int))
    else (leadingDigitsVal (c :: rest)).map (fun n => (n : Int))

/-- Model of Go `fmt.Sprintf("%03d", n)`: zero-pad the digits to width 3
(the sign, if any, counts towards the width). -/
def sprintf03d (n : Int) : String :=
  if n < 0 then
    let s := toString (-n)
    if s.length < 2 then "-" ++ String.mk (List.replicate (2 - s.length) '0') ++ s
    else "-" ++ s
  else
    let s := toString n
    if s.length < 3 then String.mk (List.replicate (3 - s.length) '0') ++ s
    else s

/-! ## database/models.go and database/mysql.go: pure helpers -/

/-- From `database.CalculateOddEven`: parity class of a sum. -/
def calculateOddEven (sum : Int) : String :=
  if sum % 2 = 0 then "双" else "单"

/-- From `database.CalculateSum`: sum of the slot values. -/
def calculateSum (nums : List Int) : Int :=
  nums.foldl (fun acc n => acc + n) 0

/-- Model of Go `strings.Split(s, "+")` on the character list (structural
recursion so that the kernel can evaluate it). -/
def splitOnPlus : List Char → List (List Char)
  | [] => [[]]
  | c :: rest =>
    let r := splitOnPlus rest
    if c = '+' then [] :: r
    else
      match r with
      | [] => [[c]]
      | h :: t => (c :: h) :: t

/-- From `database.ParseOpenNum`: split on `+`, require exactly 3 parts, each
parsed by `strconv.Atoi` after `TrimSpace`. -/
def parseOpenNum (openNum : String) : Option (List Int) :=
  let parts := (splitOnPlus openNum.data).map String.mk
  if parts.length = 3 then
    match parts.mapM (fun p => atoi (trimSpace p)) with
    | some nums => some nums
    | none => none
  else none

/-- From `database.FormatOpenNum`: `"a+b+c"`, empty string unless 3 slots. -/
def formatOpenNum (nums : List Int) : String :=
  match nums with
  | [a, b, c] => toString a ++ "+" ++ toString b ++ "+" ++ toString c
  | _ => ""

/-! ## predictor/algorithm.go: next-identifier generation -/

/-- From `DefaultPredictor.generateNextQihao` (algorithm.go): parse the whole
identifier with `Sscanf "%d"` when it has at least 7 characters; otherwise
(or when parsing fails) fall back on splitting a 7-character identifier into
a 4-character head and a 3-digit counter, and finally on `"3326999"`. -/
def generateNextQihao (latestQihao : String) : String :=
  if 7 ≤ latestQihao.length then
    match sscanfD latestQihao with
    | some qihaoNum => toString (qihaoNum + 1)
    | none =>
      if latestQihao.length = 7 then
        let pre := latestQihao.take 4
        let numStr := latestQihao.drop 4
        match sscanfD numStr with
        | some num => pre ++ sprintf03d (num + 1)
        | none => "3326999"
      else "3326999"
  else "3326999"

/-- From `App.generateNextQihao` (main.go): same parse without the length
guard. -/
def appGenerateNextQihao (latestQihao : String) : String :=
  match sscanfD latestQihao with
  | some qihaoNum => toString (qihaoNum + 1)
  | none => "3326999"

/-! ## database/models.go: records

Bookkeeping columns (auto-increment id, created_at, updated_at) and the
always-nil confidence score are omitted; `NOW()` timestamps are explicit
`Nat` arguments. -/

/-- From `database.LotteryResult`. -/
structure LotteryResult where
  qihao : String
  openTime : Nat
  openTimeString : String
  openNum : String
  sumValue : Int
  deriving DecidableEq

/-- From `database.Prediction`. -/
structure Prediction where
  targetQihao : String
  predictedNum : String
  predictedSum : Int
  predictedOddEven : String
  actualNum : Option String
  actualSum : Option Int
  actualOddEven : Option String
  isCorrect : Option Bool
  algorithmVersion : String
  predictedAt : Nat
  verifiedAt : Option Nat
  deriving DecidableEq

/-! ## database/mysql.go: store operations on a list of rows -/

/-- From `MySQLDB.CheckNewQihao`: `SELECT COUNT(*) ... WHERE qihao = ?` is
zero (the table always exists in the model). -/
def checkNewQihao (rs : List LotteryResult) (qihao : String) : Bool :=
  decide ((rs.filter (fun r => decide (r.qihao = qihao))).length = 0)

/-- From `MySQLDB.SaveLotteryResult`: `INSERT ... ON DUPLICATE KEY UPDATE`,
an upsert keyed on `qihao`. -/
def saveLotteryResult : List LotteryResult → LotteryResult → List LotteryResult
  | [], r => [r]
  | x :: rest, r =>
    if x.qihao = r.qihao then r :: rest else x :: saveLotteryResult rest r

/-- Descending insertion by `opentime` (`ORDER BY opentime DESC`). -/
def insertByOpenTimeDesc (r : LotteryResult) : List LotteryResult → List LotteryResult
  | [] => [r]
  | x :: rest =>
    if x.openTime < r.openTime then r :: x :: rest
    else x :: insertByOpenTimeDesc r rest

/-- Rows sorted by `opentime` descending. -/
def sortByOpenTimeDesc (rs : List LotteryResult) : List LotteryResult :=
  rs.foldr insertByOpenTimeDesc []

/-- From `MySQLDB.GetLatestLotteryResults`: `ORDER BY opentime DESC LIMIT ?`. -/
def getLatestLotteryResults (rs : List LotteryResult) (limit : Nat) : List LotteryResult :=
  (sortByOpenTimeDesc rs).take limit

/-- MySQL `CAST(s AS UNSIGNED)`: numeric value of the longest digit head. -/
def castUnsigned (s : String) : Nat :=
  digitsToNat (s.data.takeWhile Char.isDigit)

/-- Descending insertion by `CAST(target_qihao AS UNSIGNED)`. -/
def insertByTargetNumDesc (p : Prediction) : List Prediction → List Prediction
  | [] => [p]
  | q :: rest =>
    if castUnsigned q.targetQihao < castUnsigned p.targetQihao then p :: q :: rest
    else q :: insertByTargetNumDesc p rest

/-- Predictions sorted by numeric target identifier descending. -/
def sortByTargetNumDesc (ps : List Prediction) : List Prediction :=
  ps.foldr insertByTargetNumDesc []

/-- From `MySQLDB.GetLatestPredictions`:
`ORDER BY CAST(target_qihao AS UNSIGNED) DESC LIMIT ?`. -/
def getLatestPredictions (ps : List Prediction) (limit : Nat) : List Prediction :=
  (sortByTargetNumDesc ps).take limit

/-- First row attaining the maximal `predicted_at`
(`ORDER BY predicted_at DESC LIMIT 1`; ties resolved to the earlier row). -/
def latestByPredictedAt : List Prediction → Option Prediction
  | [] => none
  | p :: rest =>
    match latestByPredictedAt rest with
    | none => some p
    | some q => if p.predictedAt < q.predictedAt then some q else some p

/-- The column assignments of the verification `UPDATE` in
`MySQLDB.ValidatePrediction`: actual draw, actual sum, actual parity,
correctness flag and `verified_at = NOW()`. -/
def verifyUpdateRow (actualResult : LotteryResult) (isCorrect : Bool) (now : Nat)
    (p : Prediction) : Prediction :=
  { p with
    actualNum := some actualResult.openNum
    actualSum := some actualResult.sumValue
    actualOddEven := some (calculateOddEven actualResult.sumValue)
    isCorrect := some isCorrect
    verifiedAt := some now }

/-- From `MySQLDB.ValidatePrediction`: select the latest prediction row for
the target identifier, decide correctness by comparing the stored predicted
parity with the parity of the actual sum, and update every row with that
target identifier (`UPDATE ... WHERE target_qihao = ?`), unconditionally. -/
def mysqlValidatePrediction (ps : List Prediction) (qihao : String)
    (actualResult : LotteryResult) (now : Nat) : Option Bool × List Prediction :=
  match latestByPredictedAt (ps.filter (fun p => decide (p.targetQihao = qihao))) with
  | none => (none, ps)
  | some sel =>
    let actualOddEven := calculateOddEven actualResult.sumValue
    let isCorrect := decide (sel.predictedOddEven = actualOddEven)
    (some isCorrect,
     ps.map (fun p =>
       if p.targetQihao = qihao then verifyUpdateRow actualResult isCorrect now p else p))

/-- From `MySQLDB.UpdatePredictionResult`: unconditional `UPDATE` of actual
draw, correctness flag and `verified_at` for every row with the target. -/
def updatePredictionResult (ps : List Prediction) (qihao : String)
    (actualNum : String) (isCorrect : Bool) (now : Nat) : List Prediction :=
  ps.map (fun p =>
    if p.targetQihao = qihao then
      { p with actualNum := some actualNum, isCorrect := some isCorrect,
               verifiedAt := some now }
    else p)

/-! ## predictor/validator.go: detailed classification -/

/-- From `predictor.ValidationResult`. -/
structure ValidationResult where
  isCorrect : Bool
  matchType : String
  matchedPositions : List Nat
  predictedNumbers : List Int
  actualNumbers : List Int
  predictedSum : Int
  actualSum : Int
  validationTime : Nat
  deriving DecidableEq

/-- From `Validator.isExactMatch`: equal length and equal at every index. -/
def isExactMatch : List Int → List Int → Bool
  | [], [] => true
  | p :: ps, a :: as => if p = a then isExactMatch ps as else false
  | _, _ => false

/-- Loop of `Validator.getMatchedPositions`, carrying the next index. -/
def matchedPositionsFrom : Nat → List Int → List Int → List Nat
  | i, p :: ps, a :: as =>
    if p = a then i :: matchedPositionsFrom (i + 1) ps as
    else matchedPositionsFrom (i + 1) ps as
  | _, _, _ => []

/-- From `Validator.getMatchedPositions`: indices (up to the shorter length)
where the two draws agree. -/
def getMatchedPositions (predicted actual : List Int) : List Nat :=
  matchedPositionsFrom 0 predicted actual

/-- From `Validator.performDetailedValidation`: exact match, else partial
with the `≥ 2` correctness threshold, else none. -/
def performDetailedValidation (predicted actual : List Int) (now : Nat) :
    ValidationResult :=
  let base : ValidationResult :=
    { isCorrect := false, matchType := "", matchedPositions := [],
      predictedNumbers := predicted, actualNumbers := actual,
      predictedSum := calculateSum predicted, actualSum := calculateSum actual,
      validationTime := now }
  if isExactMatch predicted actual then
    { base with isCorrect := true, matchType := "exact", matchedPositions := [0, 1, 2] }
  else
    let matched := getMatchedPositions predicted actual
    if 0 < matched.length then
      { base with matchType := "partial", matchedPositions := matched,
                  isCorrect := decide (2 ≤ matched.length) }
    else
      { base with matchType := "none", isCorrect := false }

/-- From `Validator.ValidatePrediction`: look the prediction up among the 20
latest rows, run the detailed positional classification, then let the store
layer (`MySQLDB.ValidatePrediction`) persist its parity-based outcome and
overwrite the result's correctness flag with it when the store call
succeeds. -/
def validatorValidatePrediction (ps : List Prediction) (qihao : String)
    (actualResult : LotteryResult) (now : Nat) :
    Option ValidationResult × List Prediction :=
  let predictions := getLatestPredictions ps 20
  match predictions.find? (fun p => decide (p.targetQihao = qihao)) with
  | none => (none, ps)
  | some targetPrediction =>
    match parseOpenNum targetPrediction.predictedNum with
    | none => (none, ps)
    | some predictedNums =>
      match parseOpenNum actualResult.openNum with
      | none => (none, ps)
      | some actualNums =>
        let result := performDetailedValidation predictedNums actualNums now
        match mysqlValidatePrediction ps qihao actualResult now with
        | (some isCorrect, ps2) => (some { result with isCorrect := isCorrect }, ps2)
        | (none, ps2) => (some result, ps2)

/-! ## database/mysql.go: aggregate statistics -/

/-- From `database.PredictionStats`; `accuracy_rate` is the exact value of
the MySQL `DECIMAL` expression, modelled in `ℚ`. -/
structure PredictionStats where
  totalPredictions : Int
  correctPredictions : Int
  accuracyRate : ℚ
  firstPrediction : Option Nat
  lastPrediction : Option Nat
  deriving DecidableEq

/-- MySQL `ROUND(x, 2)` for the nonnegative values that occur here
(round half away from zero). -/
def round2 (x : ℚ) : ℚ :=
  ((⌊x * 100 + 1 / 2⌋ : ℤ) : ℚ) / 100

/-- `MIN(predicted_at)` over a list of rows. -/
def minPredictedAt : List Prediction → Option Nat
  | [] => none
  | p :: rest =>
    match minPredictedAt rest with
    | none => some p.predictedAt
    | some m => some (min p.predictedAt m)

/-- `MAX(predicted_at)` over a list of rows. -/
def maxPredictedAt : List Prediction → Option Nat
  | [] => none
  | p :: rest =>
    match maxPredictedAt rest with
    | none => some p.predictedAt
    | some m => some (max p.predictedAt m)

/-- From `MySQLDB.GetPredictionStats`: aggregates over the rows with
`is_correct IS NOT NULL`; with no verified row the `SUM`/`ROUND`/`MIN`/`MAX`
aggregates are NULL and scanning them fails, so the call errors (`none`). -/
def getPredictionStats (ps : List Prediction) : Option PredictionStats :=
  let verified := ps.filter (fun p => p.isCorrect.isSome)
  match verified with
  | [] => none
  | _ =>
    let total : Nat := verified.length
    let correct : Nat := (verified.filter (fun p => decide (p.isCorrect = some true))).length
    some { totalPredictions := (total : Int), correctPredictions := (correct : Int),
           accuracyRate := round2 ((correct : ℚ) * 100 / (total : ℚ)),
           firstPrediction := minPredictedAt verified,
           lastPrediction := maxPredictedAt verified }

/-! ## api/client.go: fetch conversion and validation

The fetched batch is passed in as a list of raw API entries; the
time-string parse (`parseOpenTime`, Go layout parsing with the current year
prepended) is abstracted as a function parameter `pt`. -/

/-- From `database.APILotteryData`: the raw JSON fields of one entry. -/
structure APILotteryData where
  qihao : String
  openTime : String
  openNum : String
  sum : String
  deriving DecidableEq

/-- From `Client.validateOpenNum`: 3 parts split on `+`, each a number in
the range 0–9. -/
def validateOpenNum (openNum : String) : Bool :=
  let parts := (splitOnPlus openNum.data).map String.mk
  if parts.length = 3 then
    parts.all (fun part =>
      match atoi (trimSpace part) with
      | none => false
      | some num => decide (0 ≤ num ∧ num ≤ 9))
  else false

/-- From `Client.ConvertAPIDataToLotteryResult`: parse the open time, parse
the source-reported sum with `strconv.Atoi`, validate the draw format, and
build the record with the source-reported sum. -/
def convertAPIDataToLotteryResult (pt : String → Option Nat)
    (apiData : APILotteryData) : Option LotteryResult :=
  match pt apiData.openTime with
  | none => none
  | some openTime =>
    match atoi apiData.sum with
    | none => none
    | some sumValue =>
      if validateOpenNum apiData.openNum then
        some { qihao := apiData.qihao, openTime := openTime,
               openTimeString := apiData.openTime, openNum := apiData.openNum,
               sumValue := sumValue }
      else none

/-- From `Client.FetchAndValidateLatestData`: take the newest entry of the
batch, convert it, recompute the sum from the draw slots and override the
source-reported sum on mismatch. -/
def fetchAndValidateLatestData (pt : String → Option Nat)
    (data : List APILotteryData) : Option LotteryResult :=
  match data with
  | [] => none
  | latestAPIData :: _ =>
    match convertAPIDataToLotteryResult pt latestAPIData with
    | none => none
    | some lotteryResult =>
      match parseOpenNum lotteryResult.openNum with
      | none => none
      | some nums =>
        let calculatedSum := calculateSum nums
        if calculatedSum ≠ lotteryResult.sumValue then
          some { lotteryResult with sumValue := calculatedSum }
        else
          some lotteryResult

/-- From `Client.GetHistoricalData`: convert every entry of the batch,
skipping entries that fail conversion; error when none survive.  No sum
recomputation happens on this path. -/
def getHistoricalData (pt : String → Option Nat)
    (data : List APILotteryData) : Option (List LotteryResult) :=
  let results := data.filterMap (convertAPIDataToLotteryResult pt)
  if results.isEmpty then none else some results

/-! ## predictor/algorithm.go: the fixed prediction algorithm -/

/-- From `database.PredictionResult`. -/
structure PredictionResult where
  targetQihao : String
  predictedNum : String
  algorithmVersion : String
  timestamp : Nat
  deriving DecidableEq

/-- From `DefaultPredictor.ValidateInput`: at least 3 rounds
(`GetRequiredHistorySize`), each with nonempty identifier, nonempty draw and
a parseable draw. -/
def validateInput (history : List LotteryResult) : Bool :=
  if history.length < 3 then false
  else history.all (fun r =>
    !decide (r.qihao = "") && !decide (r.openNum = "")
      && (parseOpenNum r.openNum).isSome)

/-- Go `allNums[i][pos]` guarded by `pos < len(allNums[i])`, contributing 0
outside the bound. -/
def slotOrZero (nums : List Int) (pos : Nat) : Int :=
  match nums.get? pos with
  | some v => v
  | none => 0

/-- From `DefaultPredictor.fixedOddEvenPrediction`: add the three newest
draws position-wise, total the three position sums, and predict a fixed
even-sum draw `2+4+0` or odd-sum draw `1+3+1` by the parity of the
truncated average (Go integer division truncates toward zero). -/
def fixedOddEvenPrediction (allNums : List (List Int)) : List Int :=
  match allNums with
  | n0 :: n1 :: n2 :: _ =>
    let s0 := slotOrZero n0 0 + slotOrZero n1 0 + slotOrZero n2 0
    let s1 := slotOrZero n0 1 + slotOrZero n1 1 + slotOrZero n2 1
    let s2 := slotOrZero n0 2 + slotOrZero n1 2 + slotOrZero n2 2
    let totalSum := s0 + s1 + s2
    let average := Int.tdiv totalSum 3
    if average % 2 = 0 then [2, 4, 0] else [1, 3, 1]
  | _ => [1, 2, 3]

/-- From `DefaultPredictor.Predict`: validate the input, analyse the three
newest rounds (draws that fail to parse are skipped), and target the
successor of the newest observed identifier.  The unreachable inner `none`
arm covers the slot `history[:3][0]`, which the `validateInput` guard makes
safe in the source. -/
def predict (history : List LotteryResult) (now : Nat) : Option PredictionResult :=
  if validateInput history then
    match history.take 3 with
    | r0 :: r1 :: r2 :: _ =>
      let allNums := [r0, r1, r2].filterMap (fun r => parseOpenNum r.openNum)
      let predictedNums := fixedOddEvenPrediction allNums
      let nextQihao := generateNextQihao r0.qihao
      some { targetQihao := nextQihao, predictedNum := formatOpenNum predictedNums,
             algorithmVersion := "v1.0", timestamp := now }
    | _ => none
  else none

/-! ## main.go: the orchestrator cycle -/

/-- The durable-store state seen by the orchestrator. -/
structure DBState where
  lotteryResults : List LotteryResult
  predictions : List Prediction
  deriving DecidableEq

/-- Observable side effects of one orchestrator cycle, in program order. -/
inductive Event where
  | fetchFail : Event
  | fetchOk : Event
  | checkNew (isNew : Bool) : Event
  | saveRound (qihao : String) : Event
  | cacheRound : Event
  | verifyAttempt (qihao : String) : Event
  | verifyFail : Event
  | generateAttempt : Event
  | generateFail : Event
  | savePrediction (qihao : String) : Event
  | cachePrediction : Event
  | notify (qihao : String) : Event
  deriving DecidableEq

/-- From `App.verifyPreviousPrediction`: run the validator; a validation
error is logged and leaves the store unchanged. -/
def verifyPreviousPrediction (st : DBState) (actualResult : LotteryResult)
    (now : Nat) : List Event × DBState :=
  match validatorValidatePrediction st.predictions actualResult.qihao actualResult now with
  | (none, _) => ([.verifyAttempt actualResult.qihao, .verifyFail], st)
  | (some _, ps2) =>
    ([.verifyAttempt actualResult.qihao], { st with predictions := ps2 })

/-- From `App.generateNewPrediction`: read the last 3 rounds, require 3 of
them, run the fixed algorithm, persist the forecast (`SavePrediction` is a
plain INSERT), update the cache and broadcast. -/
def generateNewPrediction (st : DBState) (now : Nat) : List Event × DBState :=
  let historyData := getLatestLotteryResults st.lotteryResults 3
  if historyData.length < 3 then ([.generateAttempt, .generateFail], st)
  else
    match predict historyData now with
    | none => ([.generateAttempt, .generateFail], st)
    | some predictionResult =>
      let predictedNums := (parseOpenNum predictionResult.predictedNum).getD []
      let predictedSum := calculateSum predictedNums
      let prediction : Prediction :=
        { targetQihao := predictionResult.targetQihao
          predictedNum := predictionResult.predictedNum
          predictedSum := predictedSum
          predictedOddEven := calculateOddEven predictedSum
          actualNum := none
          actualSum := none
          actualOddEven := none
          isCorrect := none
          algorithmVersion := predictionResult.algorithmVersion
          predictedAt := predictionResult.timestamp
          verifiedAt := none }
      ([.generateAttempt, .savePrediction prediction.targetQihao, .cachePrediction,
        .notify prediction.targetQihao],
       { st with predictions := st.predictions ++ [prediction] })

/-- From `App.processDataUpdate`: fetch and validate the latest round, check
novelty against the store, and — only for a novel round — save the round,
sync the cache, verify the previous forecast, then generate (and persist,
broadcast) the new forecast. -/
def processDataUpdate (pt : String → Option Nat) (st : DBState)
    (batch : List APILotteryData) (now : Nat) : List Event × DBState :=
  match fetchAndValidateLatestData pt batch with
  | none => ([.fetchFail], st)
  | some latestData =>
    let isNew := checkNewQihao st.lotteryResults latestData.qihao
    if isNew = false then ([.fetchOk, .checkNew false], st)
    else
      let st1 : DBState :=
        { st with lotteryResults := saveLotteryResult st.lotteryResults latestData }
      let ve2 := verifyPreviousPrediction st1 latestData now
      let ge3 := generateNewPrediction ve2.2 now
      ([.fetchOk, .checkNew true, .saveRound latestData.qihao, .cacheRound]
        ++ ve2.1 ++ ge3.1, ge3.2)

/-! ## cache/memory.go: the in-memory cache

`sync.Map` is modelled as an association list with unique keys, in `Range`
iteration order; `Store` removes the old binding and appends the new one.
`time.Now()` is an explicit `Nat`.  The value type is a parameter; the JSON
marshal/unmarshal copy performed by `Get` is modelled as returning the
stored value. -/

/-- From `cache.MemoryItem`. -/
structure MemoryItem (α : Type) where
  value : α
  expiresAt : Nat
  createdAt : Nat
  deriving DecidableEq

/-- From `MemoryItem.IsExpired`: `time.Now().After(item.ExpiresAt)` —
strictly after the expiry instant. -/
def isExpired (now : Nat) (item : MemoryItem α) : Bool :=
  decide (item.expiresAt < now)

/-- From `cache.MemoryCache`: the entry table, the maximum entry count and
the entry counter (`int64` fields modelled as `Int`). -/
structure MemoryCache (α : Type) where
  items : List (String × MemoryItem α)
  maxSize : Int
  size : Int
  deriving DecidableEq

/-- `sync.Map.Load`. -/
def loadItem (items : List (String × MemoryItem α)) (key : String) :
    Option (MemoryItem α) :=
  (items.find? (fun p => decide (p.1 = key))).map Prod.snd

/-- The delete half of `sync.Map.LoadAndDelete` / `sync.Map.Delete`: drop
the binding of the key (a `sync.Map` holds at most one). -/
def eraseKey (key : String) : List (String × MemoryItem α) → List (String × MemoryItem α)
  | [] => []
  | p :: rest => if p.1 = key then rest else p :: eraseKey key rest

/-- The `Range` loop of `evictOldest`, carrying the current oldest
candidate; a later entry replaces it only when strictly older. -/
def findOldestLoop (cur : Option (String × Nat)) :
    List (String × MemoryItem α) → Option (String × Nat)
  | [] => cur
  | (k, item) :: rest =>
    match cur with
    | none => findOldestLoop (some (k, item.createdAt)) rest
    | some (k2, t2) =>
      if item.createdAt < t2 then findOldestLoop (some (k, item.createdAt)) rest
      else findOldestLoop (some (k2, t2)) rest

/-- From `MemoryCache.evictOldest`: key and creation time of the entry the
`Range` loop settles on. -/
def findOldest (items : List (String × MemoryItem α)) : Option (String × Nat) :=
  findOldestLoop none items

/-- From `MemoryCache.evictOldest`: delete the found entry and decrement
the counter; no-op on an empty table. -/
def evictOldest (c : MemoryCache α) : MemoryCache α :=
  match findOldest c.items with
  | none => c
  | some (oldestKey, _) =>
    { c with items := eraseKey oldestKey c.items, size := c.size - 1 }

/-- From `MemoryCache.Set`: build the item with `expiry = now + ttl`, evict
when the counter has reached the maximum, then `LoadAndDelete` (counting a
new key) and `Store`. -/
def setOp (c : MemoryCache α) (now : Nat) (key : String) (value : α) (ttl : Nat) :
    MemoryCache α :=
  let item : MemoryItem α := { value := value, expiresAt := now + ttl, createdAt := now }
  let c1 := if c.maxSize ≤ c.size then evictOldest c else c
  let existed := (loadItem c1.items key).isSome
  let items2 := eraseKey key c1.items
  let size2 := if existed then c1.size else c1.size + 1
  { c1 with items := items2 ++ [(key, item)], size := size2 }

/-- From `MemoryCache.Get`: a missing key is a miss; an expired entry is
deleted and reported as a miss; otherwise the (copied) value is returned. -/
def getOp (c : MemoryCache α) (now : Nat) (key : String) :
    Option α × MemoryCache α :=
  match loadItem c.items key with
  | none => (none, c)
  | some item =>
    if isExpired now item then
      (none, { c with items := eraseKey key c.items, size := c.size - 1 })
    else (some item.value, c)

/-! ## Concrete inputs used by the claim scenarios -/

/-- Concrete inputs: a pending forecast predicting `2+4+0` (sum 6, even) for
round 3326100, and the actual draw `2+4+1` (sum 7, odd). -/
def c1Pred : Prediction :=
  { targetQihao := "3326100", predictedNum := "2+4+0", predictedSum := 6,
    predictedOddEven := "双", actualNum := none, actualSum := none,
    actualOddEven := none, isCorrect := none, algorithmVersion := "v1.0",
    predictedAt := 0, verifiedAt := none }

/-- The observed round used in the C1 scenario. -/
def c1Actual : LotteryResult :=
  { qihao := "3326100", openTime := 10, openTimeString := "",
    openNum := "2+4+1", sumValue := 7 }

/-- The detailed validation result produced in the C1 scenario. -/
def c1Vr : ValidationResult :=
  { isCorrect := false, matchType := "partial", matchedPositions := [0, 1],
    predictedNumbers := [2, 4, 0], actualNumbers := [2, 4, 1],
    predictedSum := 6, actualSum := 7, validationTime := 5 }

/-- The prediction row as persisted in the C1 scenario. -/
def c1PredAfter : Prediction :=
  { c1Pred with
    actualNum := some "2+4+1"
    actualSum := some 7
    actualOddEven := some "单"
    isCorrect := some false
    verifiedAt := some 5 }

/-- The prediction rows persisted in the C1 scenario. -/
def c1Ps2 : List Prediction := [c1PredAfter]

/-- An already-verified prediction row: verified at time 1 against the
actual draw `2+4+0` (sum 6), with `is_correct = true`. -/
def c2Pred : Prediction :=
  { targetQihao := "3326100", predictedNum := "2+4+0", predictedSum := 6,
    predictedOddEven := "双", actualNum := some "2+4+0", actualSum := some 6,
    actualOddEven := some "双", isCorrect := some true,
    algorithmVersion := "v1.0", predictedAt := 0, verifiedAt := some 1 }

/-- A different actual draw used for the second verification attempt. -/
def c2Actual : LotteryResult :=
  { qihao := "3326100", openTime := 20, openTimeString := "",
    openNum := "2+4+1", sumValue := 7 }

/-- Two verified forecasts (one correct, one not) used for C3. -/
def c3PA : Prediction :=
  { targetQihao := "3326101", predictedNum := "1+3+1", predictedSum := 5,
    predictedOddEven := "单", actualNum := some "1+3+1", actualSum := some 5,
    actualOddEven := some "单", isCorrect := some true,
    algorithmVersion := "v1.0", predictedAt := 1, verifiedAt := some 3 }

/-- The incorrect verified forecast used for C3. -/
def c3PB : Prediction :=
  { targetQihao := "3326102", predictedNum := "2+4+0", predictedSum := 6,
    predictedOddEven := "双", actualNum := some "1+3+1", actualSum := some 5,
    actualOddEven := some "单", isCorrect := some false,
    algorithmVersion := "v1.0", predictedAt := 2, verifiedAt := some 4 }

/-- A pending forecast used for C3. -/
def c3Pending : Prediction :=
  { targetQihao := "3326103", predictedNum := "2+4+0", predictedSum := 6,
    predictedOddEven := "双", actualNum := none, actualSum := none,
    actualOddEven := none, isCorrect := none,
    algorithmVersion := "v1.0", predictedAt := 5, verifiedAt := none }

/-- The C3 forecast set: N = 2 verified, C = 1 correct. -/
def c3Preds : List Prediction := [c3PA, c3PB]

/-- A trivial open-time parse used for concrete C5 runs. -/
def pt0 : String → Option Nat := fun _ => some 0

/-- A source entry whose reported sum (8) disagrees with its slot sum (7). -/
def c5Entry : APILotteryData :=
  { qihao := "3326100", openTime := "08-23 01:16:00", openNum := "4+3+0", sum := "8" }

/-- The record produced by the latest-round path for `c5Entry`: sum
recomputed to 7. -/
def c5Fetched : LotteryResult :=
  { qihao := "3326100", openTime := 0, openTimeString := "08-23 01:16:00",
    openNum := "4+3+0", sumValue := 7 }

/-- The record produced by the historical path for `c5Entry`: source sum 8
kept. -/
def c5Hist : LotteryResult :=
  { qihao := "3326100", openTime := 0, openTimeString := "08-23 01:16:00",
    openNum := "4+3+0", sumValue := 8 }

/-- An open-time parse assigning time 10 to every raw string, for concrete
cycle runs. -/
def ptTen : String → Option Nat := fun _ => some 10

/-- Prior round 3326097. -/
def c6R97 : LotteryResult :=
  { qihao := "3326097", openTime := 1, openTimeString := "", openNum := "1+2+3",
    sumValue := 6 }

/-- Prior round 3326098. -/
def c6R98 : LotteryResult :=
  { qihao := "3326098", openTime := 2, openTimeString := "", openNum := "0+6+3",
    sumValue := 9 }

/-- Prior round 3326099. -/
def c6R99 : LotteryResult :=
  { qihao := "3326099", openTime := 3, openTimeString := "", openNum := "4+6+6",
    sumValue := 16 }

/-- The pending forecast targeting the round about to be observed. -/
def c6Pending : Prediction :=
  { targetQihao := "3326100", predictedNum := "2+4+0", predictedSum := 6,
    predictedOddEven := "双", actualNum := none, actualSum := none,
    actualOddEven := none, isCorrect := none, algorithmVersion := "v1.0",
    predictedAt := 4, verifiedAt := none }

/-- Store state before the cycle: three rounds, one pending forecast. -/
def c6St : DBState :=
  { lotteryResults := [c6R99, c6R98, c6R97], predictions := [c6Pending] }

/-- The fetched batch carrying the novel round 3326100. -/
def c6Batch : List APILotteryData :=
  [{ qihao := "3326100", openTime := "08-23 01:16:00", openNum := "4+3+0",
     sum := "7" }]

/-- The validated latest round produced from `c6Batch` under `ptTen`. -/
def c6Latest : LotteryResult :=
  { qihao := "3326100", openTime := 10, openTimeString := "08-23 01:16:00",
    openNum := "4+3+0", sumValue := 7 }

/-- Store state that already contains round 3326100. -/
def c7St : DBState :=
  { lotteryResults := [c6Latest, c6R99, c6R98, c6R97], predictions := [] }

/-- A cache of naturals at capacity 2, entries created at times 1 and 2. -/
def c8Cache : MemoryCache Nat :=
  { items := [("a", { value := 11, expiresAt := 100, createdAt := 1 }),
              ("b", { value := 22, expiresAt := 100, createdAt := 2 })],
    maxSize := 2, size := 2 }

/-! ## Supporting lemmas about the store queries -/

theorem latestByPredictedAt_isSome (p : Prediction) (rest : List Prediction) :
    ∃ q, latestByPredictedAt (p :: rest) = some q := by
  simp only [latestByPredictedAt]
  cases latestByPredictedAt rest with
  | none => exact ⟨p, rfl⟩
  | some q =>
    by_cases hc : p.predictedAt < q.predictedAt
    · exact ⟨q, by simp [hc]⟩
    · exact ⟨p, by simp [hc]⟩

theorem mem_of_mem_insertByTargetNumDesc {x p : Prediction} {l : List Prediction}
    (h : x ∈ insertByTargetNumDesc p l) : x = p ∨ x ∈ l := by
  induction l with
  | nil => simpa [insertByTargetNumDesc] using h
  | cons q rest ih =>
    simp only [insertByTargetNumDesc] at h
    split at h
    · rcases List.mem_cons.mp h with h1 | h2
      · exact Or.inl h1
      · exact Or.inr h2
    · rcases List.mem_cons.mp h with h1 | h2
      · exact Or.inr (by simp [h1])
      · rcases ih h2 with h3 | h4
        · exact Or.inl h3
        · exact Or.inr (List.mem_cons_of_mem _ h4)

theorem mem_of_mem_sortByTargetNumDesc {x : Prediction} {l : List Prediction}
    (h : x ∈ sortByTargetNumDesc l) : x ∈ l := by
  induction l with
  | nil => simp [sortByTargetNumDesc] at h
  | cons p rest ih =>
    have hx : x ∈ insertByTargetNumDesc p (sortByTargetNumDesc rest) := by
      simpa [sortByTargetNumDesc] using h
    rcases mem_of_mem_insertByTargetNumDesc hx with h1 | h2
    · simp [h1]
    · exact List.mem_cons_of_mem _ (ih h2)

theorem mem_of_mem_getLatestPredictions {x : Prediction} {l : List Prediction}
    {n : Nat} (h : x ∈ getLatestPredictions l n) : x ∈ l :=
  mem_of_mem_sortByTargetNumDesc (List.mem_of_mem_take h)

/-! ## Claim C1: what determines the persisted correctness flag -/

/-- C1 counterexample: predicted `2+4+0` against actual `2+4+1` agrees on 2
of 3 positions, so the claim requires the stored flag to be correct; the
code classifies the match as "partial" with 2 matched positions yet persists
`is_correct = false`, because the parity of the sums (6 even vs 7 odd)
disagrees — parity, not the match count, decides the persisted flag. -/
theorem c1_counterexample :
    ((validatorValidatePrediction [c1Pred] "3326100" c1Actual 5).1.map
      (fun r => (r.matchedPositions.length, r.matchType, r.isCorrect))
        = some (2, "partial", false))
    ∧ ((validatorValidatePrediction [c1Pred] "3326100" c1Actual 5).2.map
      (fun p => p.isCorrect) = [some false]) := by decide

/-- C1 (amended): for every verified forecast, the persisted correctness
flag equals the parity comparison between the stored predicted parity and
the parity of the actual sum; the positional match count only determines the
reported match type, never the persisted flag. -/
theorem c1_persisted_flag_is_parity (ps : List Prediction) (qihao : String)
    (actualResult : LotteryResult) (now : Nat) (vr : ValidationResult)
    (ps2 : List Prediction)
    (h : validatorValidatePrediction ps qihao actualResult now = (some vr, ps2)) :
    ∃ sel,
      latestByPredictedAt (ps.filter (fun p => decide (p.targetQihao = qihao)))
          = some sel
      ∧ vr.isCorrect
          = decide (sel.predictedOddEven = calculateOddEven actualResult.sumValue)
      ∧ ∀ p2 ∈ ps2, p2.targetQihao = qihao →
          p2.isCorrect = some vr.isCorrect ∧ p2.verifiedAt = some now := by
  simp only [validatorValidatePrediction] at h
  split at h
  · simp at h
  · rename_i tp hf
    split at h
    · simp at h
    · rename_i predictedNums hp1
      split at h
      · simp at h
      · rename_i actualNums hp2
        have htpMem : tp ∈ ps :=
          mem_of_mem_getLatestPredictions (List.mem_of_find?_eq_some hf)
        have htpT : tp.targetQihao = qihao := by
          have := List.find?_some hf
          simpa using this
        have hfil : tp ∈ ps.filter (fun p => decide (p.targetQihao = qihao)) :=
          List.mem_filter.mpr ⟨htpMem, by simp [htpT]⟩
        cases hfl : ps.filter (fun p => decide (p.targetQihao = qihao)) with
        | nil => rw [hfl] at hfil; simp at hfil
        | cons a as =>
          obtain ⟨sel, hsel0⟩ := latestByPredictedAt_isSome a as
          simp only [mysqlValidatePrediction, hfl, hsel0, Prod.mk.injEq,
            Option.some.injEq] at h
          obtain ⟨hvr, hps⟩ := h
          refine ⟨sel, hsel0, ?_, ?_⟩
          · rw [← hvr]
          · intro p2 hp2m ht
            rw [← hps] at hp2m
            obtain ⟨p, hpmem, rfl⟩ := List.mem_map.mp hp2m
            by_cases hc : p.targetQihao = qihao
            · rw [← hvr]
              simp [hc, verifyUpdateRow]
            · rw [if_neg hc] at ht
              exact absurd ht hc

/-- Witness for `c1_persisted_flag_is_parity` at the concrete C1 scenario. -/
theorem c1_persisted_flag_is_parity_witness :
    ∃ sel,
      latestByPredictedAt ([c1Pred].filter (fun p => decide (p.targetQihao = "3326100")))
          = some sel
      ∧ c1Vr.isCorrect
          = decide (sel.predictedOddEven = calculateOddEven c1Actual.sumValue)
      ∧ ∀ p2 ∈ c1Ps2, p2.targetQihao = "3326100" →
          p2.isCorrect = some c1Vr.isCorrect ∧ p2.verifiedAt = some 5 :=
  c1_persisted_flag_is_parity [c1Pred] "3326100" c1Actual 5 c1Vr c1Ps2 (by decide)

/-! ## Claim C2: re-verification of an already-verified forecast -/

/-- C2 counterexample: the row is already verified (`is_correct = some true`,
`verified_at = 1`), yet a second verification call rewrites the stored
outcome to `is_correct = false`, `verified_at = 2`, `actual_sum = 7` — the
claim said a later attempt never overwrites the stored outcome. -/
theorem c2_counterexample :
    c2Pred.isCorrect = some true ∧ c2Pred.verifiedAt = some 1
    ∧ ((mysqlValidatePrediction [c2Pred] "3326100" c2Actual 2).2.map
        (fun p => (p.isCorrect, p.verifiedAt, p.actualSum))
          = [(some false, some 2, some 7)]) := by decide

/-- C2 (amended): the store-level verification update is unconditional — a
later verification call on a forecast that is already verified succeeds and
overwrites the stored actual fields, correctness flag and verification
timestamp with the new values; the one-way transition is not enforced by
the store layer. -/
theorem c2_reverify_overwrites (ps : List Prediction) (qihao : String)
    (actualResult : LotteryResult) (now tPrev : Nat) (pOld : Prediction)
    (hmem : pOld ∈ ps) (htgt : pOld.targetQihao = qihao)
    (_hverified : pOld.verifiedAt = some tPrev) :
    ∃ b ps2, mysqlValidatePrediction ps qihao actualResult now = (some b, ps2)
      ∧ ∀ p2 ∈ ps2, p2.targetQihao = qihao →
          p2.actualNum = some actualResult.openNum
          ∧ p2.actualSum = some actualResult.sumValue
          ∧ p2.isCorrect = some b
          ∧ p2.verifiedAt = some now := by
  have hfil : pOld ∈ ps.filter (fun p => decide (p.targetQihao = qihao)) :=
    List.mem_filter.mpr ⟨hmem, by simp [htgt]⟩
  cases hfl : ps.filter (fun p => decide (p.targetQihao = qihao)) with
  | nil => rw [hfl] at hfil; simp at hfil
  | cons a as =>
    obtain ⟨sel, hsel0⟩ := latestByPredictedAt_isSome a as
    refine ⟨decide (sel.predictedOddEven = calculateOddEven actualResult.sumValue),
      ps.map (fun p =>
        if p.targetQihao = qihao then
          verifyUpdateRow actualResult
            (decide (sel.predictedOddEven = calculateOddEven actualResult.sumValue)) now p
        else p), ?_, ?_⟩
    · simp only [mysqlValidatePrediction, hfl, hsel0]
    · intro p2 hp2m ht
      obtain ⟨p, hpmem, rfl⟩ := List.mem_map.mp hp2m
      by_cases hc : p.targetQihao = qihao
      · simp [hc, verifyUpdateRow]
      · rw [if_neg hc] at ht
        exact absurd ht hc

/-- Witness for `c2_reverify_overwrites` at the concrete C2 scenario. -/
theorem c2_reverify_overwrites_witness :
    ∃ b ps2, mysqlValidatePrediction [c2Pred] "3326100" c2Actual 2 = (some b, ps2)
      ∧ ∀ p2 ∈ ps2, p2.targetQihao = "3326100" →
          p2.actualNum = some c2Actual.openNum
          ∧ p2.actualSum = some c2Actual.sumValue
          ∧ p2.isCorrect = some b
          ∧ p2.verifiedAt = some 2 :=
  c2_reverify_overwrites [c2Pred] "3326100" c2Actual 2 1 c2Pred
    (by decide) (by decide) (by decide)

/-! ## Claim C3: aggregate accuracy statistics -/

/-- The nested filter of `getPredictionStats` collapses: filtering the
verified rows for `is_correct = 1` is filtering all rows for it. -/
theorem filter_isSome_filter_correct (ps : List Prediction) :
    (ps.filter (fun p => p.isCorrect.isSome)).filter
        (fun p => decide (p.isCorrect = some true))
      = ps.filter (fun p => decide (p.isCorrect = some true)) := by
  induction ps with
  | nil => rfl
  | cons p rest ih =>
    cases hp : p.isCorrect with
    | none => simp [List.filter_cons, hp, ih]
    | some b => cases b <;> simp [List.filter_cons, hp, ih]

/-- C3 (amended): with at least one verified forecast, the computed
statistics are: total = N (count of verified forecasts), correct = C,
accuracy rate = `ROUND(C * 100 / N, 2)` — that is, `C/N` expressed as a
percentage and rounded to 2 decimal places, not `C/N` itself — and
first/last timestamps range over verified forecasts only; moreover all five
statistics are unchanged by inserting or removing a pending (unverified)
forecast anywhere in the set. -/
theorem c3_stats_formula (ps : List Prediction) :
    (ps.filter (fun p => p.isCorrect.isSome) ≠ [] →
      getPredictionStats ps = some
        { totalPredictions := ((ps.filter (fun p => p.isCorrect.isSome)).length : Int)
          correctPredictions :=
            ((ps.filter (fun p => decide (p.isCorrect = some true))).length : Int)
          accuracyRate := round2
            ((((ps.filter (fun p => decide (p.isCorrect = some true))).length : ℚ) * 100)
              / ((ps.filter (fun p => p.isCorrect.isSome)).length : ℚ))
          firstPrediction := minPredictedAt (ps.filter (fun p => p.isCorrect.isSome))
          lastPrediction := maxPredictedAt (ps.filter (fun p => p.isCorrect.isSome)) })
    ∧ ∀ (l1 l2 : List Prediction) (p : Prediction), p.isCorrect = none →
        getPredictionStats (l1 ++ p :: l2) = getPredictionStats (l1 ++ l2) := by
  constructor
  · intro hne
    have hcc := filter_isSome_filter_correct ps
    cases hv : ps.filter (fun p => p.isCorrect.isSome) with
    | nil => exact absurd hv hne
    | cons a as =>
      rw [hv] at hcc
      simp only [getPredictionStats, hv, hcc]
  · intro l1 l2 p hp
    have hs : p.isCorrect.isSome = false := by rw [hp]; rfl
    have hfil : (l1 ++ p :: l2).filter (fun q => q.isCorrect.isSome)
        = (l1 ++ l2).filter (fun q => q.isCorrect.isSome) := by
      simp [List.filter_append, List.filter_cons, hs]
    simp only [getPredictionStats, hfil]

/-- C3 counterexample: with N = 2 verified forecasts and C = 1 correct, the
claim says the stored accuracy rate is `round2 (1/2) = 0.5`; the code stores
`ROUND(1 * 100.0 / 2, 2) = 50`, a percentage. -/
theorem c3_counterexample :
    ¬ (getPredictionStats c3Preds).map (fun s => s.accuracyRate)
        = some (round2 ((1 : ℚ) / 2)) := by
  have hfil : c3Preds.filter (fun p => p.isCorrect.isSome) = [c3PA, c3PB] := by decide
  have hfc : [c3PA, c3PB].filter (fun p => decide (p.isCorrect = some true))
      = [c3PA] := by decide
  have h50 : round2 (50 : ℚ) = 50 := by norm_num [round2, Int.floor_eq_iff]
  have hhalf : round2 ((1 : ℚ) / 2) = 1 / 2 := by norm_num [round2, Int.floor_eq_iff]
  simp only [getPredictionStats, hfil, hfc]
  intro h
  simp only [Option.map_some', Option.some.injEq] at h
  norm_num [h50, hhalf] at h

/-- Witness for `c3_stats_formula`: the first part at the concrete C3 set,
the second with a pending forecast appended. -/
theorem c3_stats_formula_witness :
    getPredictionStats c3Preds = some
      { totalPredictions := ((c3Preds.filter (fun p => p.isCorrect.isSome)).length : Int)
        correctPredictions :=
          ((c3Preds.filter (fun p => decide (p.isCorrect = some true))).length : Int)
        accuracyRate := round2
          ((((c3Preds.filter (fun p => decide (p.isCorrect = some true))).length : ℚ) * 100)
            / ((c3Preds.filter (fun p => p.isCorrect.isSome)).length : ℚ))
        firstPrediction := minPredictedAt (c3Preds.filter (fun p => p.isCorrect.isSome))
        lastPrediction := maxPredictedAt (c3Preds.filter (fun p => p.isCorrect.isSome)) }
    ∧ getPredictionStats (c3Preds ++ c3Pending :: [])
        = getPredictionStats (c3Preds ++ []) :=
  ⟨(c3_stats_formula c3Preds).1 (by decide),
   (c3_stats_formula c3Preds).2 c3Preds [] c3Pending (by decide)⟩

/-! ## Claim C4: the generated target identifier -/

theorem not_isWhitespace_of_isDigit {c : Char} (h : c.isDigit = true) :
    c.isWhitespace = false := by
  simp only [Char.isDigit, Bool.and_eq_true, decide_eq_true_eq] at h
  simp only [Char.isWhitespace, Bool.or_eq_false_iff, decide_eq_false_iff_not]
  refine ⟨⟨⟨?_, ?_⟩, ?_⟩, ?_⟩ <;> rintro rfl <;> revert h <;> decide

theorem ne_dash_of_isDigit {c : Char} (h : c.isDigit = true) : ¬ c = '-' := by
  simp only [Char.isDigit, Bool.and_eq_true, decide_eq_true_eq] at h
  rintro rfl; revert h; decide

theorem ne_plus_of_isDigit {c : Char} (h : c.isDigit = true) : ¬ c = '+' := by
  simp only [Char.isDigit, Bool.and_eq_true, decide_eq_true_eq] at h
  rintro rfl; revert h; decide

theorem takeWhile_isDigit_of_all {l : List Char} (h : l.all Char.isDigit = true) :
    l.takeWhile Char.isDigit = l := by
  induction l with
  | nil => rfl
  | cons c rest ih =>
    simp only [List.all_cons, Bool.and_eq_true] at h
    simp [List.takeWhile_cons, h.1, ih h.2]

/-- On a nonempty all-digit string the `Sscanf "%d"` model parses the whole
string as a number. -/
theorem sscanfD_of_digits {s : String} (hne : s.data ≠ [])
    (hd : s.data.all Char.isDigit = true) :
    sscanfD s = some ((digitsToNat s.data : Nat) : Int) := by
  cases hl : s.data with
  | nil => exact absurd hl hne
  | cons c rest =>
    have hall : (c :: rest).all Char.isDigit = true := by rw [← hl]; exact hd
    simp only [List.all_cons, Bool.and_eq_true] at hall
    have hws := not_isWhitespace_of_isDigit hall.1
    simp only [sscanfD, hl, List.dropWhile_cons, hws, Bool.false_eq_true, if_false]
    rw [if_neg (ne_dash_of_isDigit hall.1), if_neg (ne_plus_of_isDigit hall.1)]
    simp only [leadingDigitsVal]
    rw [takeWhile_isDigit_of_all (by simp [hall.1, hall.2])]
    simp

/-- C4 counterexample: for the identifier string `"123"` the generated next
identifier is the fixed fallback `"3326999"`, not the numeric successor
`"124"` that the claim requires for every identifier string. -/
theorem c4_counterexample :
    generateNextQihao "123" = "3326999" ∧ ¬ generateNextQihao "123" = "124" := by
  decide

/-- C4 (amended): for every all-digit identifier of at least 7 digits, the
generated next identifier is the decimal representation of its numeric value
plus one (the numeric successor — e.g. observing round 3326099 targets
3326100); all-digit identifiers shorter than 7 characters fall back to the
fixed string `"3326999"`. -/
theorem c4_next_qihao (s : String) (hd : s.data.all Char.isDigit = true) :
    generateNextQihao s =
      if 7 ≤ s.length then Nat.repr (digitsToNat s.data + 1) else "3326999" := by
  by_cases hlen : 7 ≤ s.length
  · have hne : s.data ≠ [] := by
      intro h0
      have : s.length = 0 := by
        show s.data.length = 0
        rw [h0]; rfl
      omega
    rw [if_pos hlen]
    simp only [generateNextQihao, if_pos hlen, sscanfD_of_digits hne hd]
    have hcast : ((digitsToNat s.data : Nat) : Int) + 1
        = ((digitsToNat s.data + 1 : Nat) : Int) := by omega
    rw [hcast]
    rfl
  · rw [if_neg hlen]
    simp [generateNextQihao, hlen]

/-- Witness for `c4_next_qihao` at the identifier `"3326099"` (and, through
the same `if`, the short identifier branch is exercised by
`c4_next_qihao` applied to `"123"`). -/
theorem c4_next_qihao_witness :
    (generateNextQihao "3326099" =
      if 7 ≤ ("3326099" : String).length then Nat.repr (digitsToNat "3326099".data + 1)
      else "3326999")
    ∧ (generateNextQihao "123" =
      if 7 ≤ ("123" : String).length then Nat.repr (digitsToNat "123".data + 1)
      else "3326999") :=
  ⟨c4_next_qihao "3326099" (by decide), c4_next_qihao "123" (by decide)⟩

/-! ## Claim C5: stored sums versus source-reported sums -/

/-- C5 counterexample: on the historical-window path the stored sum is the
source-reported 8, although the slot sum of `4+3+0` is 7 — the claim
asserted the recomputed value is stored on every path. -/
theorem c5_counterexample :
    (getHistoricalData pt0 [c5Entry]).map (fun rs => rs.map (fun r => r.sumValue))
        = some [8]
    ∧ (parseOpenNum "4+3+0").map calculateSum = some 7 := by decide

/-- C5 (amended): only the latest-round path recomputes the sum — every
round returned by `FetchAndValidateLatestData` carries the slot sum
(overriding the source value on mismatch), while every round returned by
`GetHistoricalData` carries the source-reported sum parsed from the entry,
with no recomputation. -/
theorem c5_sum_validation (pt : String → Option Nat) (data : List APILotteryData) :
    (∀ r, fetchAndValidateLatestData pt data = some r →
      ∃ nums, parseOpenNum r.openNum = some nums ∧ r.sumValue = calculateSum nums)
    ∧ (∀ rs, getHistoricalData pt data = some rs →
        ∀ r ∈ rs, ∃ d ∈ data, convertAPIDataToLotteryResult pt d = some r
          ∧ atoi d.sum = some r.sumValue) := by
  constructor
  · intro r h
    cases data with
    | nil => simp [fetchAndValidateLatestData] at h
    | cons latestAPIData rest =>
      simp only [fetchAndValidateLatestData] at h
      split at h
      · simp at h
      · rename_i lotteryResult hconv
        split at h
        · simp at h
        · rename_i nums hnums
          split at h <;> rw [Option.some.injEq] at h <;> subst h
          · exact ⟨nums, hnums, rfl⟩
          · rename_i hc
            refine ⟨nums, hnums, ?_⟩
            push_neg at hc
            exact hc.symm
  · intro rs h r hr
    simp only [getHistoricalData] at h
    split at h
    · simp at h
    · rw [Option.some.injEq] at h
      subst h
      obtain ⟨d, hd, hconv⟩ := List.mem_filterMap.mp hr
      refine ⟨d, hd, hconv, ?_⟩
      simp only [convertAPIDataToLotteryResult] at hconv
      split at hconv
      · simp at hconv
      · split at hconv
        · simp at hconv
        · rename_i sv hsv
          split at hconv
          · rw [Option.some.injEq] at hconv
            subst hconv
            exact hsv
          · simp at hconv

/-- Witness for `c5_sum_validation` on the concrete mismatching entry. -/
theorem c5_sum_validation_witness :
    (∃ nums, parseOpenNum c5Fetched.openNum = some nums
      ∧ c5Fetched.sumValue = calculateSum nums)
    ∧ (∃ d ∈ [c5Entry], convertAPIDataToLotteryResult pt0 d = some c5Hist
      ∧ atoi d.sum = some c5Hist.sumValue) :=
  ⟨(c5_sum_validation pt0 [c5Entry]).1 c5Fetched (by decide),
   (c5_sum_validation pt0 [c5Entry]).2 [c5Hist] (by decide) c5Hist (by decide)⟩

/-! ## Claims C6 and C7: cycle ordering and idempotence -/

/-- C6 counterexample: in the concrete novel-round cycle the full event
trace persists the round (index 2) before verifying its pending forecast
(index 4) — the claim requires verification (step 4) to precede round
persistence (step 5). -/
theorem c6_counterexample :
    (processDataUpdate ptTen c6St c6Batch 30).1
      = [.fetchOk, .checkNew true, .saveRound "3326100", .cacheRound,
         .verifyAttempt "3326100", .generateAttempt, .savePrediction "3326101",
         .cachePrediction, .notify "3326101"]
    ∧ List.indexOf (Event.saveRound "3326100") (processDataUpdate ptTen c6St c6Batch 30).1
        < List.indexOf (Event.verifyAttempt "3326100")
            (processDataUpdate ptTen c6St c6Batch 30).1 := by decide

/-- C6 (amended): in every cycle that observes a novel round the side
effects happen in the fixed order — persist the round, sync the cache, then
verify the round's pending forecast, then attempt generation of the new
forecast (persisting and notifying on success); in particular verification
of the round's own pending forecast always precedes generation of the new
forecast within the same cycle, while round persistence precedes
verification. -/
theorem c6_cycle_order (pt : String → Option Nat) (st : DBState)
    (batch : List APILotteryData) (now : Nat) (latestData : LotteryResult)
    (hf : fetchAndValidateLatestData pt batch = some latestData)
    (hnew : checkNewQihao st.lotteryResults latestData.qihao = true) :
    ∃ tr st3, processDataUpdate pt st batch now = (tr, st3)
      ∧ ∃ i j k, i < j ∧ j < k
        ∧ tr.get? i = some (.saveRound latestData.qihao)
        ∧ tr.get? j = some (.verifyAttempt latestData.qihao)
        ∧ tr.get? k = some .generateAttempt := by
  rcases hv : verifyPreviousPrediction
      { st with lotteryResults := saveLotteryResult st.lotteryResults latestData }
      latestData now with ⟨ve, st2⟩
  rcases hg : generateNewPrediction st2 now with ⟨ge, st3⟩
  have hrun : processDataUpdate pt st batch now
      = ([.fetchOk, .checkNew true, .saveRound latestData.qihao, .cacheRound]
          ++ ve ++ ge, st3) := by
    simp only [processDataUpdate, hf, hnew]
    rw [if_neg (by simp), hv, hg]
  have hve : ve = [.verifyAttempt latestData.qihao]
      ∨ ve = [.verifyAttempt latestData.qihao, .verifyFail] := by
    simp only [verifyPreviousPrediction] at hv
    split at hv <;> rw [Prod.mk.injEq] at hv
    · exact Or.inr hv.1.symm
    · exact Or.inl hv.1.symm
  have hge : ∃ gtail, ge = .generateAttempt :: gtail := by
    simp only [generateNewPrediction] at hg
    split at hg
    · rw [Prod.mk.injEq] at hg
      exact ⟨[.generateFail], hg.1.symm⟩
    · split at hg <;> rw [Prod.mk.injEq] at hg
      · exact ⟨[.generateFail], hg.1.symm⟩
      · exact ⟨_, hg.1.symm⟩
  refine ⟨_, st3, hrun, ?_⟩
  obtain ⟨gtail, hgt⟩ := hge
  rcases hve with hve | hve <;> subst hve <;> subst hgt
  · exact ⟨2, 4, 5, by omega, by omega, rfl, rfl, rfl⟩
  · exact ⟨2, 4, 6, by omega, by omega, rfl, rfl, rfl⟩

/-- Witness for `c6_cycle_order` on the concrete novel-round cycle. -/
theorem c6_cycle_order_witness :
    ∃ tr st3, processDataUpdate ptTen c6St c6Batch 30 = (tr, st3)
      ∧ ∃ i j k, i < j ∧ j < k
        ∧ tr.get? i = some (.saveRound c6Latest.qihao)
        ∧ tr.get? j = some (.verifyAttempt c6Latest.qihao)
        ∧ tr.get? k = some .generateAttempt :=
  c6_cycle_order ptTen c6St c6Batch 30 c6Latest (by decide) (by decide)

/-- C7 (confirmed): when the newest fetched identifier is already present
in the durable store, the cycle ends with the novelty check: the trace
contains no round write, no forecast write and no notification, and the
store state is unchanged. -/
theorem c7_repeat_batch_is_noop (pt : String → Option Nat) (st : DBState)
    (batch : List APILotteryData) (now : Nat) (latestData : LotteryResult)
    (hf : fetchAndValidateLatestData pt batch = some latestData)
    (hmem : latestData.qihao ∈ st.lotteryResults.map LotteryResult.qihao) :
    processDataUpdate pt st batch now = ([.fetchOk, .checkNew false], st) := by
  have hcn : checkNewQihao st.lotteryResults latestData.qihao = false := by
    obtain ⟨r, hr, hq⟩ := List.mem_map.mp hmem
    have hmf : r ∈ st.lotteryResults.filter (fun x => decide (x.qihao = latestData.qihao)) :=
      List.mem_filter.mpr ⟨hr, by simp [hq]⟩
    simp only [checkNewQihao, decide_eq_false_iff_not]
    intro hlen
    rw [List.length_eq_zero] at hlen
    rw [hlen] at hmf
    simp at hmf
  simp [processDataUpdate, hf, hcn]

/-- Witness for `c7_repeat_batch_is_noop`: re-feeding the batch whose
newest round is already stored changes nothing. -/
theorem c7_repeat_batch_is_noop_witness :
    processDataUpdate ptTen c7St c6Batch 31 = ([.fetchOk, .checkNew false], c7St) :=
  c7_repeat_batch_is_noop ptTen c7St c6Batch 31 c6Latest (by decide) (by decide)

/-! ## Supporting lemmas for the cache -/

theorem eraseKey_sublist (key : String) (l : List (String × MemoryItem α)) :
    List.Sublist (eraseKey key l) l := by
  induction l with
  | nil => simp [eraseKey]
  | cons p rest ih =>
    simp only [eraseKey]
    split
    · exact List.sublist_cons_self p rest
    · exact List.Sublist.cons₂ p ih

theorem eraseKey_eq_self {l : List (String × MemoryItem α)} {key : String}
    (h : ∀ p ∈ l, ¬ p.1 = key) : eraseKey key l = l := by
  induction l with
  | nil => rfl
  | cons p rest ih =>
    simp only [eraseKey]
    rw [if_neg (h p (by simp)), ih (fun q hq => h q (by simp [hq]))]

theorem eraseKey_no_key {l : List (String × MemoryItem α)} {key : String}
    (hnd : (l.map Prod.fst).Nodup) : ∀ p ∈ eraseKey key l, ¬ p.1 = key := by
  induction l with
  | nil => simp [eraseKey]
  | cons q rest ih =>
    simp only [List.map_cons, List.nodup_cons] at hnd
    simp only [eraseKey]
    split
    · rename_i hq
      intro p hp hpk
      exact hnd.1 (by
        rw [hq, ← hpk]
        exact List.mem_map_of_mem Prod.fst hp)
    · rename_i hq
      intro p hp hpk
      rcases List.mem_cons.mp hp with rfl | hp2
      · exact hq hpk
      · exact ih hnd.2 p hp2 hpk

theorem eraseKey_middle {l1 l2 : List (String × MemoryItem α)} {k0 : String}
    {item : MemoryItem α} (h : ¬ k0 ∈ l1.map Prod.fst) :
    eraseKey k0 (l1 ++ (k0, item) :: l2) = l1 ++ l2 := by
  induction l1 with
  | nil => simp [eraseKey]
  | cons p rest ih =>
    simp only [List.map_cons, List.mem_cons, not_or] at h
    simp only [List.cons_append, eraseKey, List.append_eq]
    rw [if_neg (fun hpk => h.1 hpk.symm), ih h.2]

theorem find?_append_of_no_key {l1 l2 : List (String × MemoryItem α)} {key : String}
    (h : ∀ p ∈ l1, ¬ p.1 = key) :
    (l1 ++ l2).find? (fun p => decide (p.1 = key))
      = l2.find? (fun p => decide (p.1 = key)) := by
  induction l1 with
  | nil => rfl
  | cons p rest ih =>
    have hp := h p (by simp)
    simp only [List.cons_append, List.find?_cons]
    rw [show (decide (p.1 = key)) = false by simp [hp]]
    exact ih (fun q hq => h q (by simp [hq]))

theorem findOldestLoop_isSome (l : List (String × MemoryItem α))
    (acc : String × Nat) : ∃ kt, findOldestLoop (some acc) l = some kt := by
  induction l generalizing acc with
  | nil => exact ⟨acc, rfl⟩
  | cons p rest ih =>
    rcases p with ⟨k, item⟩
    rcases acc with ⟨k2, t2⟩
    simp only [findOldestLoop]
    split
    · exact ih (k, item.createdAt)
    · exact ih (k2, t2)

/-- The `Range` loop with a live candidate either keeps the candidate —
which is then no later than every listed entry — or settles on a strictly
older listed entry that is no later than every listed entry. -/
theorem findOldestLoop_spec (l : List (String × MemoryItem α)) (kc : String)
    (tc : Nat) (k0 : String) (t0 : Nat)
    (h : findOldestLoop (some (kc, tc)) l = some (k0, t0)) :
    (k0 = kc ∧ t0 = tc ∧ ∀ p ∈ l, tc ≤ p.2.createdAt)
    ∨ (∃ l1 item l2, l = l1 ++ (k0, item) :: l2 ∧ item.createdAt = t0
        ∧ (∀ p ∈ l, t0 ≤ p.2.createdAt) ∧ t0 < tc) := by
  induction l generalizing kc tc with
  | nil =>
    simp only [findOldestLoop, Option.some.injEq, Prod.mk.injEq] at h
    exact Or.inl ⟨h.1.symm, h.2.symm, by simp⟩
  | cons p rest ih =>
    rcases p with ⟨k, item⟩
    simp only [findOldestLoop] at h
    by_cases hlt : item.createdAt < tc
    · rw [if_pos hlt] at h
      rcases ih k item.createdAt h with ⟨hk, ht, hall⟩ | ⟨l1, item2, l2, hdec, hct, hall, hlt2⟩
      · refine Or.inr ⟨[], item, rest, ?_, ?_, ?_, ?_⟩
        · simp [hk]
        · exact ht.symm
        · intro p hp
          rcases List.mem_cons.mp hp with rfl | hp2
          · show t0 ≤ item.createdAt
            omega
          · rw [ht]; exact hall p hp2
        · omega
      · refine Or.inr ⟨(k, item) :: l1, item2, l2, by rw [hdec, List.cons_append], hct, ?_, by omega⟩
        intro p hp
        rcases List.mem_cons.mp hp with rfl | hp2
        · show t0 ≤ item.createdAt
          omega
        · exact hall p hp2
    · rw [if_neg hlt] at h
      rcases ih kc tc h with ⟨hk, ht, hall⟩ | ⟨l1, item2, l2, hdec, hct, hall, hlt2⟩
      · refine Or.inl ⟨hk, ht, ?_⟩
        intro p hp
        rcases List.mem_cons.mp hp with rfl | hp2
        · show tc ≤ item.createdAt
          omega
        · exact hall p hp2
      · refine Or.inr ⟨(k, item) :: l1, item2, l2, by rw [hdec, List.cons_append], hct, ?_, hlt2⟩
        intro p hp
        rcases List.mem_cons.mp hp with rfl | hp2
        · show t0 ≤ item.createdAt
          omega
        · exact hall p hp2

/-- The entry found by the eviction scan splits the table around an entry
with the globally minimal creation time. -/
theorem findOldest_decomp {l : List (String × MemoryItem α)} {k0 : String} {t0 : Nat}
    (h : findOldest l = some (k0, t0)) :
    ∃ l1 item l2, l = l1 ++ (k0, item) :: l2 ∧ item.createdAt = t0
      ∧ ∀ p ∈ l, t0 ≤ p.2.createdAt := by
  cases l with
  | nil => simp [findOldest, findOldestLoop] at h
  | cons p rest =>
    rcases p with ⟨k, item⟩
    have h2 : findOldestLoop (some (k, item.createdAt)) rest = some (k0, t0) := h
    rcases findOldestLoop_spec rest k item.createdAt k0 t0 h2 with
      ⟨hk, ht, hall⟩ | ⟨l1, item2, l2, hdec, hct, hall, hlt⟩
    · refine ⟨[], item, rest, by simp [hk], ht.symm, ?_⟩
      intro q hq
      rcases List.mem_cons.mp hq with rfl | hq2
      · show t0 ≤ item.createdAt
        omega
      · rw [ht]; exact hall q hq2
    · refine ⟨(k, item) :: l1, item2, l2, by rw [hdec, List.cons_append], hct, ?_⟩
      intro q hq
      rcases List.mem_cons.mp hq with rfl | hq2
      · show t0 ≤ item.createdAt
        omega
      · exact hall q hq2

theorem evictOldest_items_sublist (c : MemoryCache α) :
    List.Sublist (evictOldest c).items c.items := by
  simp only [evictOldest]
  split
  · exact List.Sublist.refl _
  · exact eraseKey_sublist _ _

theorem findOldest_isSome_of_ne_nil {l : List (String × MemoryItem α)}
    (h : l ≠ []) : ∃ kt, findOldest l = some kt := by
  cases l with
  | nil => exact absurd rfl h
  | cons p rest =>
    rcases p with ⟨k, item⟩
    exact findOldestLoop_isSome rest (k, item.createdAt)

theorem not_mem_left_of_nodup_middle {l1 l2 : List (String × MemoryItem α)}
    {k0 : String} {item : MemoryItem α}
    (hnd : ((l1 ++ (k0, item) :: l2).map Prod.fst).Nodup) :
    ¬ k0 ∈ l1.map Prod.fst ∧ ¬ k0 ∈ l2.map Prod.fst := by
  rw [List.map_append, List.map_cons, List.nodup_append] at hnd
  obtain ⟨h1, h2, hdisj⟩ := hnd
  constructor
  · intro hmem
    exact hdisj hmem (by simp)
  · rw [List.nodup_cons] at h2
    exact fun hm => h2.1 hm

/-! ## Claim C8: eviction at capacity for a fresh key -/

/-- C8 (confirmed): on a consistent cache at capacity, setting a fresh key
evicts exactly one entry — one whose creation time is minimal among the
current entries — and then stores the new entry; the entry count and the
size counter are unchanged. -/
theorem c8_capacity_eviction (c : MemoryCache α) (now ttl : Nat) (key : String)
    (v : α)
    (hnd : (c.items.map Prod.fst).Nodup)
    (hcap : c.size = c.maxSize)
    (_hlen : c.size = (c.items.length : Int))
    (hne : c.items ≠ [])
    (hfresh : ∀ p ∈ c.items, ¬ p.1 = key) :
    ∃ l1 evicted l2, c.items = l1 ++ evicted :: l2
      ∧ (∀ p ∈ c.items, evicted.2.createdAt ≤ p.2.createdAt)
      ∧ (setOp c now key v ttl).items
          = l1 ++ l2 ++ [(key, { value := v, expiresAt := now + ttl, createdAt := now })]
      ∧ (setOp c now key v ttl).size = c.size
      ∧ (setOp c now key v ttl).items.length = c.items.length := by
  have hge : c.maxSize ≤ c.size := le_of_eq hcap.symm
  obtain ⟨⟨k0, t0⟩, hfo⟩ := findOldest_isSome_of_ne_nil hne
  obtain ⟨l1, item, l2, hdec, hct, hmin⟩ := findOldest_decomp hfo
  have hnmem := not_mem_left_of_nodup_middle (hdec ▸ hnd)
  have hev : evictOldest c = { c with items := l1 ++ l2, size := c.size - 1 } := by
    simp only [evictOldest, hfo]
    rw [hdec, eraseKey_middle hnmem.1]
  have hfresh2 : ∀ p ∈ l1 ++ l2, ¬ p.1 = key := by
    intro p hp
    apply hfresh
    rw [hdec]
    rcases List.mem_append.mp hp with h1 | h2
    · exact List.mem_append.mpr (Or.inl h1)
    · exact List.mem_append.mpr (Or.inr (List.mem_cons_of_mem _ h2))
  have hload : loadItem (l1 ++ l2) key = none := by
    simp only [loadItem]
    rw [List.find?_eq_none.mpr (fun p hp => by simp [hfresh2 p hp])]
    rfl
  refine ⟨l1, (k0, item), l2, hdec, ?_, ?_, ?_, ?_⟩
  · intro p hp
    show item.createdAt ≤ p.2.createdAt
    rw [hct]
    exact hmin p hp
  · simp only [setOp, if_pos hge, hev]
    rw [eraseKey_eq_self hfresh2]
  · simp only [setOp, if_pos hge, hev, hload]
    simp
  · simp only [setOp, if_pos hge, hev]
    rw [eraseKey_eq_self hfresh2, hdec]
    simp [List.length_append]

/-- Witness for `c8_capacity_eviction`: setting the fresh key `"c"` on the
full cache evicts the oldest entry. -/
theorem c8_capacity_eviction_witness :
    ∃ l1 evicted l2, c8Cache.items = l1 ++ evicted :: l2
      ∧ (∀ p ∈ c8Cache.items, evicted.2.createdAt ≤ p.2.createdAt)
      ∧ (setOp c8Cache 5 "c" 33 7).items
          = l1 ++ l2 ++ [("c", { value := 33, expiresAt := 5 + 7, createdAt := 5 })]
      ∧ (setOp c8Cache 5 "c" 33 7).size = c8Cache.size
      ∧ (setOp c8Cache 5 "c" 33 7).items.length = c8Cache.items.length :=
  c8_capacity_eviction c8Cache 5 7 "c" 33 (by decide) (by decide) (by decide)
    (by decide) (by decide)

/-! ## Claim C9: visibility window of a cache entry -/

/-- After a `set` the stored binding of the key is the fresh item. -/
theorem loadItem_setOp (c : MemoryCache α) (t0 ttl : Nat) (key : String) (v : α)
    (hnd : (c.items.map Prod.fst).Nodup) :
    loadItem (setOp c t0 key v ttl).items key
      = some { value := v, expiresAt := t0 + ttl, createdAt := t0 } := by
  have hsub : List.Sublist (if c.maxSize ≤ c.size then evictOldest c else c).items
      c.items := by
    split
    · exact evictOldest_items_sublist c
    · exact List.Sublist.refl _
  have hnd1 : ((if c.maxSize ≤ c.size then evictOldest c else c).items.map
      Prod.fst).Nodup := List.Nodup.sublist (List.Sublist.map Prod.fst hsub) hnd
  have hnk : ∀ p ∈ eraseKey key (if c.maxSize ≤ c.size then evictOldest c else c).items,
      ¬ p.1 = key := eraseKey_no_key hnd1
  simp only [setOp, loadItem]
  rw [find?_append_of_no_key hnk]
  simp [List.find?_cons]

/-- C9 counterexample: set at time 0 with ttl 5, read exactly at the expiry
instant 5 — the claim requires a Miss at any time at or after expiry, but
`IsExpired` uses `time.Now().After(ExpiresAt)`, so the entry is still
returned. -/
theorem c9_counterexample :
    (getOp (setOp ({ items := [], maxSize := 10, size := 0 } : MemoryCache Nat)
      0 "k" 42 5) 5 "k").1 = some 42 := by decide

/-- C9 (amended): a value set at `t0` with the given ttl is returned by
`get` at every time `now ≤ t0 + ttl` — including the expiry instant itself
— and is reported as a Miss at every time strictly after expiry: an entry
is visible to readers iff `now ≤ expiry`, even before it is physically
purged. -/
theorem c9_entry_visible_iff (c : MemoryCache α) (t0 now ttl : Nat)
    (key : String) (v : α) (hnd : (c.items.map Prod.fst).Nodup) :
    (getOp (setOp c t0 key v ttl) now key).1
      = if now ≤ t0 + ttl then some v else none := by
  have hload := loadItem_setOp c t0 ttl key v hnd
  by_cases h : now ≤ t0 + ttl
  · have hx : ¬ (t0 + ttl < now) := by omega
    simp [getOp, hload, isExpired, h, hx]
  · have hx : t0 + ttl < now := by omega
    simp [getOp, hload, isExpired, h, hx]

/-- Witness for `c9_entry_visible_iff` at a concrete set/get pair. -/
theorem c9_entry_visible_iff_witness :
    (getOp (setOp ({ items := [], maxSize := 10, size := 0 } : MemoryCache Nat)
      0 "k" 7 5) 3 "k").1 = if 3 ≤ 0 + 5 then some 7 else none :=
  c9_entry_visible_iff { items := [], maxSize := 10, size := 0 } 0 3 5 "k" 7
    (by decide)

/-! ## Claim C10: overwriting an existing key at capacity still evicts -/

/-- C10 (confirmed): `Set` checks the capacity before the key-existence
check, so at capacity (`size ≥ maxSize`) a `Set` on a key that is already
present still evicts an entry with minimal creation time before storing the
new value; when that oldest entry is a different key, it is gone from the
resulting cache — the overwrite is not eviction-free. -/
theorem c10_overwrite_at_capacity (c : MemoryCache α) (now ttl : Nat)
    (key : String) (v : α)
    (hnd : (c.items.map Prod.fst).Nodup)
    (hge : c.maxSize ≤ c.size)
    (hmem : key ∈ c.items.map Prod.fst) :
    ∃ l1 evicted l2, c.items = l1 ++ evicted :: l2
      ∧ (∀ p ∈ c.items, evicted.2.createdAt ≤ p.2.createdAt)
      ∧ (setOp c now key v ttl).items
          = eraseKey key (l1 ++ l2)
            ++ [(key, { value := v, expiresAt := now + ttl, createdAt := now })]
      ∧ (¬ evicted.1 = key →
          ¬ evicted.1 ∈ (setOp c now key v ttl).items.map Prod.fst) := by
  have hne : c.items ≠ [] := by
    intro h0
    rw [h0] at hmem
    simp at hmem
  obtain ⟨⟨k0, t0⟩, hfo⟩ := findOldest_isSome_of_ne_nil hne
  obtain ⟨l1, item, l2, hdec, hct, hmin⟩ := findOldest_decomp hfo
  have hnmem := not_mem_left_of_nodup_middle (hdec ▸ hnd)
  have hev : evictOldest c = { c with items := l1 ++ l2, size := c.size - 1 } := by
    simp only [evictOldest, hfo]
    rw [hdec, eraseKey_middle hnmem.1]
  refine ⟨l1, (k0, item), l2, hdec, ?_, ?_, ?_⟩
  · intro p hp
    show item.createdAt ≤ p.2.createdAt
    rw [hct]
    exact hmin p hp
  · simp only [setOp, if_pos hge, hev]
  · intro hkne hmem2
    simp only [setOp, if_pos hge, hev] at hmem2
    rw [List.map_append] at hmem2
    rcases List.mem_append.mp hmem2 with hm | hm
    · obtain ⟨p, hp, hpk⟩ := List.mem_map.mp hm
      have hp2 : p ∈ l1 ++ l2 := (eraseKey_sublist key (l1 ++ l2)).subset hp
      have hk0 : k0 ∈ (l1 ++ l2).map Prod.fst := by
        rw [← hpk]
        exact List.mem_map_of_mem Prod.fst hp2
      rw [List.map_append] at hk0
      rcases List.mem_append.mp hk0 with h1 | h2
      · exact hnmem.1 h1
      · exact hnmem.2 h2
    · simp at hm
      exact hkne hm

/-- Witness for `c10_overwrite_at_capacity`: overwriting the existing key
`"b"` on the full cache evicts the older entry `"a"`. -/
theorem c10_overwrite_at_capacity_witness :
    ∃ l1 evicted l2, c8Cache.items = l1 ++ evicted :: l2
      ∧ (∀ p ∈ c8Cache.items, evicted.2.createdAt ≤ p.2.createdAt)
      ∧ (setOp c8Cache 6 "b" 99 4).items
          = eraseKey "b" (l1 ++ l2)
            ++ [("b", { value := 99, expiresAt := 6 + 4, createdAt := 6 })]
      ∧ (¬ evicted.1 = "b" →
          ¬ evicted.1 ∈ (setOp c8Cache 6 "b" 99 4).items.map Prod.fst) :=
  c10_overwrite_at_capacity c8Cache 6 4 "b" 99 (by decide) (by decide) (by decide)
